import Mathlib

/-!
Verification of the resilient query-orchestration pipeline of the
`data-analysis` repository, as a shallow embedding of the Python source
under `backend/app/`.

Conventions of the embedding:
* wall-clock timestamps (`time.time()`) are modelled as integers;
* Python exceptions are modelled with `Except` (or explicit outcome types);
* Python `dict`s are modelled as association lists, `set`s as deduplicated
  lists compared by membership;
* regular-expression matching over SQL text is modelled character by
  character over `List Char`, with `\w` read as `[A-Za-z0-9_]` and `\s`
  as the ASCII whitespace characters.
-/

/-- Decidable equality of `Except` values, used only to evaluate the
embedding on concrete inputs. -/
instance {ε α : Type _} [DecidableEq ε] [DecidableEq α] : DecidableEq (Except ε α) :=
  fun x y =>
    match x, y with
    | .ok a, .ok b =>
      if h : a = b then isTrue (by rw [h]) else
        isFalse (fun he => h (by injection he))
    | .error a, .error b =>
      if h : a = b then isTrue (by rw [h]) else
        isFalse (fun he => h (by injection he))
    | .ok _, .error _ => isFalse (fun he => Except.noConfusion he)
    | .error _, .ok _ => isFalse (fun he => Except.noConfusion he)

/-! ## Circuit breaker (`backend/app/core/resilience.py`) -/

/-- The three states of `CircuitBreaker._state`: `"closed"`, `"open"`,
`"half_open"`. -/
inductive BreakerState where
  | closed
  | opened
  | halfOpen
deriving DecidableEq

/-- `CircuitBreaker` from `resilience.py` (the `name` string is dropped:
it is only used in log and error messages). -/
structure CircuitBreaker where
  failure_threshold : Nat
  recovery_timeout_s : Nat
  state : BreakerState
  failure_count : Nat
  last_failure_ts : Int
deriving DecidableEq

/-- `CircuitBreaker.__init__`: clamps both parameters with `max(1, _)`,
starts closed with zero failures and `_last_failure_ts = 0.0`. -/
def mkCircuitBreaker (failure_threshold recovery_timeout_s : Nat) : CircuitBreaker :=
  { failure_threshold := max 1 failure_threshold
    recovery_timeout_s := max 1 recovery_timeout_s
    state := .closed
    failure_count := 0
    last_failure_ts := 0 }

/-- `CircuitBreaker.check`, with the current wall clock passed explicitly.
`.error ()` models raising `CircuitOpenError`; the breaker is returned
unchanged in that case since the method mutates nothing before raising. -/
def CircuitBreaker.check (b : CircuitBreaker) (now : Int) : Except Unit CircuitBreaker :=
  if b.state ≠ .opened then .ok b
  else if (b.recovery_timeout_s : Int) ≤ now - b.last_failure_ts then
    .ok { b with state := .halfOpen }
  else .error ()

/-- `CircuitBreaker.record_success`: reset the count, close the breaker. -/
def CircuitBreaker.record_success (b : CircuitBreaker) : CircuitBreaker :=
  { b with failure_count := 0, state := .closed }

/-- `CircuitBreaker.record_failure`: increment the count, stamp the time,
and open the breaker once the count reaches the threshold. -/
def CircuitBreaker.record_failure (b : CircuitBreaker) (now : Int) : CircuitBreaker :=
  let fc := b.failure_count + 1
  { b with
      failure_count := fc
      last_failure_ts := now
      state := if b.failure_threshold ≤ fc then .opened else b.state }

/-- One operation of the breaker's public interface. -/
inductive BreakerOp where
  | check (now : Int)
  | record_success
  | record_failure (now : Int)
deriving DecidableEq

/-- The state reached after one operation (a raising `check` leaves the
breaker unchanged). -/
def applyBreakerOp (b : CircuitBreaker) (op : BreakerOp) : CircuitBreaker :=
  match op with
  | .check now =>
    match b.check now with
    | .ok b' => b'
    | .error _ => b
  | .record_success => b.record_success
  | .record_failure now => b.record_failure now

/-- The breaker state reached after a sequence of operations. -/
def runBreakerOps (b : CircuitBreaker) (ops : List BreakerOp) : CircuitBreaker :=
  ops.foldl applyBreakerOp b

lemma record_failure_count (b : CircuitBreaker) (t : Int) :
    (b.record_failure t).failure_count = b.failure_count + 1 := rfl

lemma record_failure_fields (b : CircuitBreaker) (t : Int) :
    (b.record_failure t).failure_threshold = b.failure_threshold ∧
    (b.record_failure t).recovery_timeout_s = b.recovery_timeout_s ∧
    (b.record_failure t).last_failure_ts = t := ⟨rfl, rfl, rfl⟩

lemma foldl_record_failure_count (ts : List Int) (b : CircuitBreaker) :
    (List.foldl CircuitBreaker.record_failure b ts).failure_count
      = b.failure_count + ts.length := by
  induction ts generalizing b with
  | nil => simp
  | cons t ts ih =>
    simp only [List.foldl_cons, ih, record_failure_count, List.length_cons]
    omega

lemma foldl_record_failure_threshold (ts : List Int) (b : CircuitBreaker) :
    (List.foldl CircuitBreaker.record_failure b ts).failure_threshold
      = b.failure_threshold := by
  induction ts generalizing b with
  | nil => rfl
  | cons t ts ih => simp only [List.foldl_cons, ih]; rfl

lemma foldl_record_failure_timeout (ts : List Int) (b : CircuitBreaker) :
    (List.foldl CircuitBreaker.record_failure b ts).recovery_timeout_s
      = b.recovery_timeout_s := by
  induction ts generalizing b with
  | nil => rfl
  | cons t ts ih => simp only [List.foldl_cons, ih]; rfl

lemma foldl_record_failure_last (ts : List Int) (t : Int) (b : CircuitBreaker)
    (h : ts.getLast? = some t) :
    (List.foldl CircuitBreaker.record_failure b ts).last_failure_ts = t := by
  induction ts generalizing b with
  | nil => simp at h
  | cons x xs ih =>
    cases xs with
    | nil =>
      simp only [List.getLast?_singleton, Option.some_inj] at h
      subst h; rfl
    | cons y ys =>
      rw [List.getLast?_cons_cons] at h
      simpa using ih _ h

lemma foldl_record_failure_state (ts : List Int) (b : CircuitBreaker)
    (hne : ts ≠ [])
    (hcount : b.failure_threshold ≤ b.failure_count + ts.length) :
    (List.foldl CircuitBreaker.record_failure b ts).state = .opened := by
  induction ts generalizing b with
  | nil => exact absurd rfl hne
  | cons x xs ih =>
    cases xs with
    | nil =>
      simp only [List.foldl_cons, List.foldl_nil]
      show (if b.failure_threshold ≤ b.failure_count + 1 then BreakerState.opened
            else b.state) = .opened
      rw [if_pos]
      simpa using hcount
    | cons y ys =>
      simp only [List.foldl_cons]
      apply ih _ (by simp)
      simp only [record_failure_count, (record_failure_fields b x).1]
      simp only [List.length_cons] at hcount ⊢
      omega

/-- C5: starting from a fresh breaker with failure threshold `F ≥ 1` and
recovery timeout `R ≥ 1`, after `F` or more consecutive `record_failure`
calls (the last at time `t`) the state is open; `check` raises
`CircuitOpenError` at any time less than `R` after `t`; once `R` has
elapsed, `check` permits the call and transitions the breaker to
half-open, and a subsequent `record_success` resets `failure_count` to
`0` and the state to closed. -/
theorem breaker_open_and_recovery (F R : Nat) (ts : List Int) (t now now' : Int)
    (hF : 1 ≤ F) (hR : 1 ≤ R) (hlen : F ≤ ts.length) (hlast : ts.getLast? = some t)
    (hnow : now - t < (R : Int)) (hnow' : (R : Int) ≤ now' - t) :
    (List.foldl CircuitBreaker.record_failure (mkCircuitBreaker F R) ts).state = .opened ∧
    (List.foldl CircuitBreaker.record_failure (mkCircuitBreaker F R) ts).check now
      = .error () ∧
    ∃ b', (List.foldl CircuitBreaker.record_failure (mkCircuitBreaker F R) ts).check now'
        = .ok b' ∧
      b'.state = .halfOpen ∧
      b'.record_success.failure_count = 0 ∧
      b'.record_success.state = .closed := by
  have hne : ts ≠ [] := by
    cases ts with
    | nil => simp at hlast
    | cons x xs => simp
  have hth : (List.foldl CircuitBreaker.record_failure (mkCircuitBreaker F R) ts).failure_threshold = F := by
    rw [foldl_record_failure_threshold]
    simp [mkCircuitBreaker]
    omega
  have htim : (List.foldl CircuitBreaker.record_failure (mkCircuitBreaker F R) ts).recovery_timeout_s = R := by
    rw [foldl_record_failure_timeout]
    simp [mkCircuitBreaker]
    omega
  have hlastf := foldl_record_failure_last ts t (mkCircuitBreaker F R) hlast
  have hstate : (List.foldl CircuitBreaker.record_failure (mkCircuitBreaker F R) ts).state = .opened := by
    apply foldl_record_failure_state ts _ hne
    simp [mkCircuitBreaker]
    omega
  refine ⟨hstate, ?_, ?_⟩
  · unfold CircuitBreaker.check
    rw [if_neg (by simp [hstate]), if_neg (by rw [htim, hlastf]; omega)]
  · refine ⟨{ List.foldl CircuitBreaker.record_failure (mkCircuitBreaker F R) ts with
        state := .halfOpen }, ?_, rfl, rfl, rfl⟩
    unfold CircuitBreaker.check
    rw [if_neg (by simp [hstate]), if_pos (by rw [htim, hlastf]; omega)]

/-- Witness for `breaker_open_and_recovery` at threshold 2, timeout 3,
failures at times 10 and 20. -/
theorem breaker_open_and_recovery_witness :
    (1 ≤ 2 ∧ 1 ≤ 3 ∧ 2 ≤ [(10 : Int), 20].length ∧
      [(10 : Int), 20].getLast? = some 20 ∧
      (22 : Int) - 20 < (3 : Nat) ∧ ((3 : Nat) : Int) ≤ 25 - 20) ∧
    ((List.foldl CircuitBreaker.record_failure (mkCircuitBreaker 2 3) [10, 20]).state = .opened ∧
     (List.foldl CircuitBreaker.record_failure (mkCircuitBreaker 2 3) [10, 20]).check 22
        = .error () ∧
     ∃ b', (List.foldl CircuitBreaker.record_failure (mkCircuitBreaker 2 3) [10, 20]).check 25
        = .ok b' ∧
       b'.state = .halfOpen ∧
       b'.record_success.failure_count = 0 ∧
       b'.record_success.state = .closed) :=
  ⟨⟨by omega, by omega, by simp, by simp, by omega, by omega⟩,
   breaker_open_and_recovery 2 3 [10, 20] 20 22 25
     (by omega) (by omega) (by simp) (by simp) (by omega) (by omega)⟩

/-- A breaker that has just been opened by one failure (threshold 1). -/
def breakerProbeA : CircuitBreaker := (mkCircuitBreaker 1 1).record_failure 0

/-- `breakerProbeA` after `check` has moved it to half-open. -/
def breakerProbeB : CircuitBreaker := { breakerProbeA with state := .halfOpen }

/-- C6 counterexample: after the open → half-open transition, a second and
a third `check` (before any success or failure is recorded) each still
permit the call — the code does not limit the half-open state to a single
probe. -/
theorem breaker_half_open_probe_cex :
    breakerProbeA.state = .opened ∧
    breakerProbeA.check 5 = .ok breakerProbeB ∧
    breakerProbeB.state = .halfOpen ∧
    breakerProbeB.check 5 = .ok breakerProbeB ∧
    breakerProbeB.check 6 = .ok breakerProbeB := by
  refine ⟨rfl, ?_, rfl, ?_, ?_⟩ <;> rfl

/-- C6 amended: in the half-open state, `check` is a no-op that permits
every call (it raises nothing and changes nothing) until some outcome is
recorded; the code does not restrict half-open to one probe. -/
theorem breaker_half_open_permits_checks (b : CircuitBreaker) (now : Int)
    (h : b.state = .halfOpen) : b.check now = .ok b := by
  unfold CircuitBreaker.check
  rw [if_pos (by simp [h])]

/-- Witness for `breaker_half_open_permits_checks`. -/
theorem breaker_half_open_permits_checks_witness :
    breakerProbeB.state = .halfOpen ∧ breakerProbeB.check 42 = .ok breakerProbeB :=
  ⟨rfl, breaker_half_open_permits_checks breakerProbeB 42 rfl⟩

/-- C7 counterexample: from the initial closed state, the operation
sequence `record_failure; record_success` (threshold 1) moves the state
to open and then directly back to closed in one step, never passing
through half-open. -/
theorem breaker_open_to_closed_cex :
    (runBreakerOps (mkCircuitBreaker 1 1) [.record_failure 0]).state = .opened ∧
    (runBreakerOps (mkCircuitBreaker 1 1)
        [.record_failure 0, .record_success]).state = .closed ∧
    runBreakerOps (mkCircuitBreaker 1 1) [.record_failure 0, .record_success]
      = applyBreakerOp (runBreakerOps (mkCircuitBreaker 1 1) [.record_failure 0])
          .record_success := by
  refine ⟨rfl, rfl, rfl⟩

lemma record_failure_state (b : CircuitBreaker) (t : Int) :
    (b.record_failure t).state
      = if b.failure_threshold ≤ b.failure_count + 1 then .opened else b.state := rfl

lemma check_apply (b : CircuitBreaker) (now : Int) :
    applyBreakerOp b (.check now) = b
      ∨ applyBreakerOp b (.check now) = { b with state := .halfOpen } := by
  simp only [applyBreakerOp, CircuitBreaker.check]
  by_cases h1 : b.state ≠ .opened
  · rw [if_pos h1]
    exact Or.inl rfl
  · rw [if_neg h1]
    by_cases h2 : (b.recovery_timeout_s : Int) ≤ now - b.last_failure_ts
    · rw [if_pos h2]
      exact Or.inr rfl
    · rw [if_neg h2]
      exact Or.inl rfl

lemma breaker_step_cases (b : CircuitBreaker) (op : BreakerOp)
    (h : ((applyBreakerOp b op).state = .closed ∧ b.state = .opened) ∨
         (applyBreakerOp b op).failure_count < b.failure_count) :
    op = .record_success := by
  cases op with
  | check now =>
    exfalso
    rcases check_apply b now with he | he <;> rw [he] at h
    · rcases h with ⟨h2, h3⟩ | h2
      · rw [h3] at h2
        simp at h2
      · omega
    · rcases h with ⟨h2, _⟩ | h2
      · simp at h2
      · simp at h2
  | record_failure now =>
    exfalso
    rcases h with ⟨h1, h2⟩ | h1
    · simp only [applyBreakerOp, record_failure_state] at h1
      by_cases h3 : b.failure_threshold ≤ b.failure_count + 1
      · rw [if_pos h3] at h1
        simp at h1
      · rw [if_neg h3] at h1
        rw [h2] at h1
        simp at h1
    · simp only [applyBreakerOp, record_failure_count] at h1
      omega
  | record_success => rfl

/-- C7 amended: over every sequence of breaker operations from the
initial closed state, a step that moves the state from open to closed, or
that decreases `failure_count`, can only be a `record_success` (which
resets the count to 0). `check` and `record_failure` never close an open
breaker and never decrease the count; `record_success`, however, closes
the breaker from any state — including directly from open, without
passing through half-open (which is what refutes the original claim). -/
theorem breaker_transitions_invariant (F R : Nat) (ops : List BreakerOp) (op : BreakerOp)
    (h : ((applyBreakerOp (runBreakerOps (mkCircuitBreaker F R) ops) op).state = .closed ∧
          (runBreakerOps (mkCircuitBreaker F R) ops).state = .opened) ∨
         (applyBreakerOp (runBreakerOps (mkCircuitBreaker F R) ops) op).failure_count
           < (runBreakerOps (mkCircuitBreaker F R) ops).failure_count) :
    op = .record_success ∧
    (applyBreakerOp (runBreakerOps (mkCircuitBreaker F R) ops) op).failure_count = 0 := by
  have hop := breaker_step_cases _ _ h
  subst hop
  exact ⟨rfl, rfl⟩

/-- Witness for `breaker_transitions_invariant`: one failure opens a
threshold-1 breaker, and the following success closes it directly. -/
theorem breaker_transitions_invariant_witness :
    (((applyBreakerOp (runBreakerOps (mkCircuitBreaker 1 1) [.record_failure 0])
        .record_success).state = .closed ∧
      (runBreakerOps (mkCircuitBreaker 1 1) [.record_failure 0]).state = .opened) ∨
     (applyBreakerOp (runBreakerOps (mkCircuitBreaker 1 1) [.record_failure 0])
        .record_success).failure_count
       < (runBreakerOps (mkCircuitBreaker 1 1) [.record_failure 0]).failure_count) ∧
    (BreakerOp.record_success = BreakerOp.record_success ∧
     (applyBreakerOp (runBreakerOps (mkCircuitBreaker 1 1) [.record_failure 0])
        .record_success).failure_count = 0) :=
  ⟨Or.inl ⟨rfl, rfl⟩,
   breaker_transitions_invariant 1 1 [.record_failure 0] .record_success (Or.inl ⟨rfl, rfl⟩)⟩

/-! ## SQL text functions (`backend/app/core/mysql.py`)

`_GOOD_PREFIX = re.compile(r"^\s*(SELECT|WITH)\b", re.I)`,
`_BAD_SQL = re.compile(r"\b(INSERT|UPDATE|...|REVOKE)\b", re.I)` and the
table-reference scanner `_TABLE_REF_RE` are modelled directly over
`List Char`.  `\w` is modelled as `[A-Za-z0-9_]` and `\s` as ASCII
whitespace. -/

/-- Python regex `\w` (ASCII reading): letters, digits, underscore. -/
def isWordChar (c : Char) : Bool := c.isAlphanum || c = '_'

/-- Python regex `\s` (ASCII reading): space, tab, LF, CR, VT, FF. -/
def isPySpace (c : Char) : Bool :=
  c = ' ' || c = '\t' || c = '\n' || c = '\r' || c = Char.ofNat 11 || c = Char.ofNat 12

/-- Case-insensitive match of a literal keyword against the head of the
input; returns the rest of the input on success (models `re.I` on an
ASCII keyword). -/
def matchKeywordCI : List Char → List Char → Option (List Char)
  | [], rest => some rest
  | _ :: _, [] => none
  | k :: ks, c :: cs => if c.toLower = k.toLower then matchKeywordCI ks cs else none

/-- Whether the input starts with a word character (used to test the
trailing `\b` after a keyword). -/
def headIsWordChar : List Char → Bool
  | [] => false
  | c :: _ => isWordChar c

/-- The alternation of `_BAD_SQL`. -/
def badSqlKeywords : List (List Char) :=
  ["INSERT".data, "UPDATE".data, "DELETE".data, "DROP".data, "TRUNCATE".data,
   "ALTER".data, "CREATE".data, "REPLACE".data, "GRANT".data, "REVOKE".data]

/-- Does one of the banned keywords match at this exact position, with a
word boundary on both sides?  `prevIsWord` tells whether the preceding
character (if any) is a word character. -/
def badWordAtHead (prevIsWord : Bool) (s : List Char) : Bool :=
  !prevIsWord &&
    badSqlKeywords.any (fun kw =>
      match matchKeywordCI kw s with
      | some rest => !headIsWordChar rest
      | none => false)

/-- Scan for `_BAD_SQL.search`: a word-boundary, case-insensitive
occurrence of a banned keyword anywhere in the input. -/
def hasBadSqlWordFrom (prevIsWord : Bool) : List Char → Bool
  | [] => false
  | c :: cs => badWordAtHead prevIsWord (c :: cs) || hasBadSqlWordFrom (isWordChar c) cs

/-- `_BAD_SQL.search(sql)` as a Boolean. -/
def hasBadSqlWord (sql : String) : Bool := hasBadSqlWordFrom false sql.data

/-- `_GOOD_PREFIX.search(sql)`: after leading whitespace the input starts
with `SELECT` or `WITH` (case-insensitive) followed by a word boundary. -/
def startsSelectOrWithFrom : List Char → Bool
  | [] => false
  | c :: cs =>
    if isPySpace c then startsSelectOrWithFrom cs
    else
      ["SELECT".data, "WITH".data].any (fun kw =>
        match matchKeywordCI kw (c :: cs) with
        | some rest => !headIsWordChar rest
        | none => false)

/-- `_GOOD_PREFIX.search(sql)` as a Boolean. -/
def startsSelectOrWith (sql : String) : Bool := startsSelectOrWithFrom sql.data

/-- `validate_readonly_sql` from `mysql.py`; `.error` models raising
`ValueError`. -/
def validate_readonly_sql (sql : String) : Except String Unit :=
  if !startsSelectOrWith sql then .error "Only SELECT/WITH queries are allowed."
  else if hasBadSqlWord sql then .error "Write/DDL statements are not allowed."
  else .ok ()

/-- C3: `validate_readonly_sql` raises whenever the statement does not
begin (after leading whitespace) with SELECT or WITH, or contains a
case-insensitive word-boundary occurrence of a write/DDL keyword; and on
the three concrete examples of the spec it behaves as claimed. -/
theorem validate_readonly_rejects_writes (sql : String)
    (h : startsSelectOrWith sql = false ∨ hasBadSqlWord sql = true) :
    (validate_readonly_sql sql).isOk = false ∧
    (validate_readonly_sql "DELETE FROM x").isOk = false ∧
    (validate_readonly_sql "update t set a=1").isOk = false ∧
    (validate_readonly_sql "  with c as (select 1) select * from c").isOk = true := by
  refine ⟨?_, by decide, by decide, by decide⟩
  unfold validate_readonly_sql
  rcases h with h | h
  · rw [h]
    rfl
  · rw [h]
    by_cases h2 : startsSelectOrWith sql <;> simp [h2] <;> rfl

/-- Witness for `validate_readonly_rejects_writes` at
`"update t set a=1"`. -/
theorem validate_readonly_rejects_writes_witness :
    (startsSelectOrWith "update t set a=1" = false ∨
      hasBadSqlWord "update t set a=1" = true) ∧
    (validate_readonly_sql "update t set a=1").isOk = false :=
  ⟨Or.inl (by decide),
   (validate_readonly_rejects_writes "update t set a=1" (Or.inl (by decide))).1⟩

/-- Opening quote class of `_TABLE_REF_RE`: one of `` ` ``, `"`, `\`, `[`. -/
def isQuoteOpenChar (c : Char) : Bool :=
  c = '`' || c = '"' || c = '\\' || c = '['

/-- Closing quote class of `_TABLE_REF_RE`: one of `` ` ``, `"`, `\`, `]`. -/
def isQuoteCloseChar (c : Char) : Bool :=
  c = '`' || c = '"' || c = '\\' || c = ']'

/-- Greedy `[\w]+`: the longest word-character run at the head, plus the
rest. -/
def takeWordChars : List Char → List Char × List Char
  | [] => ([], [])
  | c :: cs =>
    if isWordChar c then
      let p := takeWordChars cs
      (c :: p.1, p.2)
    else ([], c :: cs)

/-- One segment of the identifier of `_TABLE_REF_RE`:
`` [`"\\[]?[\w]+[`"\\]]? ``.  Returns the matched characters (quotes
included, as in group 2 of the regex) and the rest of the input. -/
def matchIdentSegment (s : List Char) : Option (List Char × List Char) :=
  let step1 : List Char × List Char :=
    match s with
    | c :: cs => if isQuoteOpenChar c then ([c], cs) else ([], s)
    | [] => ([], [])
  let w := takeWordChars step1.2
  if w.1 = [] then none
  else
    let step3 : List Char × List Char :=
      match w.2 with
      | c :: cs => if isQuoteCloseChar c then ([c], cs) else ([], w.2)
      | [] => ([], [])
    some (step1.1 ++ w.1 ++ step3.1, step3.2)

/-- The full identifier of `_TABLE_REF_RE`: one segment optionally
followed by `.` and a second segment (a dotted qualifier). -/
def matchIdent (s : List Char) : Option (List Char × List Char) :=
  match matchIdentSegment s with
  | none => none
  | some (seg1, rest) =>
    match rest with
    | '.' :: rest2 =>
      match matchIdentSegment rest2 with
      | some (seg2, rest3) => some (seg1 ++ '.' :: seg2, rest3)
      | none => some (seg1, rest)
    | _ => some (seg1, rest)

/-- Greedy `\s*`. -/
def dropPySpaces : List Char → List Char
  | [] => []
  | c :: cs => if isPySpace c then dropPySpaces cs else c :: cs

/-- Attempt to match `(from|join)\s+<ident>` starting exactly at the head
of the input (the leading `\b` is checked by the caller).  Returns group 2
(the identifier) and the rest of the input after the match. -/
def tryMatchTableRef (s : List Char) : Option (List Char × List Char) :=
  let afterKw : Option (List Char) :=
    match matchKeywordCI "from".data s with
    | some r => some r
    | none => matchKeywordCI "join".data s
  match afterKw with
  | none => none
  | some r1 =>
    match r1 with
    | c :: cs => if isPySpace c then matchIdent (dropPySpaces cs) else none
    | [] => none

/-- Whether the last character of a nonempty matched identifier is a word
character (determines the `\b` context for the next scanning position). -/
def lastIsWordChar (l : List Char) : Bool :=
  match l.getLast? with
  | some c => isWordChar c
  | none => false

/-- `_TABLE_REF_RE.finditer`: left-to-right, non-overlapping scan.  The
fuel argument bounds the number of steps; every step consumes at least
one character, so fuel = input length is exact. -/
def scanTableRefs : Nat → Bool → List Char → List (List Char)
  | 0, _, _ => []
  | _ + 1, _, [] => []
  | fuel + 1, prevWord, c :: cs =>
    if prevWord then scanTableRefs fuel (isWordChar c) cs
    else
      match tryMatchTableRef (c :: cs) with
      | some (ident, rest) =>
        ident :: scanTableRefs fuel (lastIsWordChar ident) rest
      | none => scanTableRefs fuel (isWordChar c) cs

/-- Python `str.strip("`\"[]")`: remove those characters from both ends. -/
def isStripQuoteChar (c : Char) : Bool :=
  c = '`' || c = '"' || c = '[' || c = ']'

/-- Strip quote/bracket characters from both ends of an identifier. -/
def stripQuoteChars (l : List Char) : List Char :=
  ((l.dropWhile isStripQuoteChar).reverse.dropWhile isStripQuoteChar).reverse

/-- Python `ident.split(".")[-1]`: the characters after the last dot. -/
def afterLastDot (l : List Char) : List Char :=
  (l.reverse.takeWhile (fun c => !(c = '.'))).reverse

/-- The per-match post-processing of `extract_table_names`: strip
surrounding quote characters, then keep only the last dotted segment. -/
def processTableIdent (ident : List Char) : List Char :=
  let stripped := stripQuoteChars ident
  if stripped.contains '.' then afterLastDot stripped else stripped

/-- `extract_table_names(sql)` from `mysql.py`.  The `if not ident` and
`if ident.startswith("(")` guards of the source are kept even though the
regex can produce neither an empty group 2 nor one that starts with a
parenthesis. -/
def extract_table_names (sql : String) : List String :=
  (scanTableRefs (sql.data.length + 1) false sql.data).filterMap fun ident =>
    if ident = [] then none
    else if ident.head? = some '(' then none
    else some (String.mk (processTableIdent ident))

lemma afterLastDot_no_dot (l : List Char) : ('.' ∈ afterLastDot l) = False := by
  simp only [afterLastDot, List.mem_reverse, eq_iff_iff, iff_false]
  intro hmem
  have := List.takeWhile_subset (l := l.reverse) (p := fun c => !(c = '.')) hmem
  have h2 := List.mem_takeWhile_imp hmem
  simp at h2

lemma stripQuoteChars_subset (l : List Char) (c : Char) (h : c ∈ stripQuoteChars l) :
    c ∈ l := by
  simp only [stripQuoteChars, List.mem_reverse] at h
  have h1 := List.dropWhile_subset (p := isStripQuoteChar) h
  rw [List.mem_reverse] at h1
  exact List.dropWhile_subset (p := isStripQuoteChar) h1

lemma processTableIdent_no_dot (ident : List Char) : '.' ∉ processTableIdent ident := by
  unfold processTableIdent
  by_cases h : (stripQuoteChars ident).contains '.'
  · simp only [h, if_pos]
    rw [afterLastDot_no_dot]
    exact id
  · simp only [h]
    rw [if_neg (by simp [h])]
    intro hmem
    exact h (List.elem_iff.mpr hmem)

/-- C8: `extract_table_names` on the two examples of the spec — quoted
identifiers after FROM/JOIN are found and their quotes stripped, and a
parenthesised subquery yields no table reference; moreover (the "last
segment of a dotted qualifier" rule) no returned name ever contains a
dot, and a dotted qualifier keeps only its last segment. -/
theorem extract_table_names_spec (sql : String) :
    extract_table_names "SELECT a FROM `orders` o JOIN \"customers\" c ON ..."
      = ["orders", "customers"] ∧
    extract_table_names "SELECT * FROM (SELECT 1) t" = [] ∧
    extract_table_names "SELECT x FROM db.orders WHERE y = 1" = ["orders"] ∧
    ∀ name ∈ extract_table_names sql, '.' ∉ name.data := by
  refine ⟨by decide, by decide, by decide, ?_⟩
  intro name hname
  unfold extract_table_names at hname
  rw [List.mem_filterMap] at hname
  obtain ⟨ident, _, hmap⟩ := hname
  by_cases h1 : ident = []
  · rw [if_pos h1] at hmap
    exact absurd hmap (by simp)
  · rw [if_neg h1] at hmap
    by_cases h2 : ident.head? = some '('
    · rw [if_pos h2] at hmap
      exact absurd hmap (by simp)
    · rw [if_neg h2] at hmap
      have : name = String.mk (processTableIdent ident) := by
        injection hmap with h
        exact h.symm
      rw [this]
      exact processTableIdent_no_dot ident

/-! ## Query gateway (`run_sql`, `_with_mysql_retry`, `async_retry`)

The database itself is external: one call to the underlying
`_execute_fetchmany` operation is modelled by an `AttemptOutcome`
supplied by the environment — either the full unbounded result set of
the statement (from which `fetchmany(size=max_rows)` takes a prefix) or
an exception, classified by `_is_retryable_mysql`. -/

/-- Outcome of one attempt of the wrapped database operation. -/
inductive AttemptOutcome where
  | ok (cols : List String) (rows : List (List String))
  | err (retryable : Bool)
deriving DecidableEq

/-- One call of `_op` inside `run_sql`: `_execute_fetchmany` fetches at
most `max_rows` rows of the underlying result set. -/
def attemptFetch (max_rows : Nat) (o : AttemptOutcome) :
    Except Bool (List String × List (List String)) :=
  match o with
  | .ok cols rows => .ok (cols, rows.take max_rows)
  | .err r => .error r

/-- `async_retry` from `resilience.py`, specialised to the predicate
classification already applied (the Boolean carried by `.err` is the
value of `should_retry`); the sleep with jitter has no observable effect
here.  Returns the number of attempts performed together with the final
result.  An exhausted outcome list behaves as a non-retryable failure
(the environment did not specify further behaviour). -/
def async_retry (max_rows retries : Nat) :
    Nat → List AttemptOutcome → Nat × Except Bool (List String × List (List String))
  | _, [] => (0, .error false)
  | attempt, o :: rest =>
    match attemptFetch max_rows o with
    | .ok r => (1, .ok r)
    | .error retryable =>
      if retryable && decide (attempt < retries) then
        let p := async_retry max_rows retries (attempt + 1) rest
        (p.1 + 1, p.2)
      else (1, .error retryable)

/-- The exceptions raised by `run_sql`, by Python class. -/
inductive MysqlError where
  | validation (msg : String)
  | circuitOpen
  | query
deriving DecidableEq

/-- The environment of one `run_sql` call: successive outcomes of the
underlying execute, and the wall-clock instants at which the breaker
would be checked and at which a failure would be stamped. -/
structure MysqlWorld where
  outcomes : List AttemptOutcome
  check_now : Int
  fail_now : Int
deriving DecidableEq

/-- `_with_mysql_retry`: `check` the shared breaker (raising
`CircuitOpenError` propagates, with no mutation), run the retry loop,
then record exactly one success or failure on the breaker.  Returns the
updated breaker, the number of database attempts, and the result. -/
def with_mysql_retry (b : CircuitBreaker) (retries max_rows : Nat) (w : MysqlWorld) :
    CircuitBreaker × Nat × Except MysqlError (List String × List (List String)) :=
  match b.check w.check_now with
  | .error _ => (b, 0, .error .circuitOpen)
  | .ok b1 =>
    match async_retry max_rows retries 0 w.outcomes with
    | (n, .ok r) => (b1.record_success, n, .ok r)
    | (n, .error _) => (b1.record_failure w.fail_now, n, .error .query)

/-- `run_sql` from `mysql.py`: validate first, then execute under the
retry/breaker wrapper (the final `[list(r) for r in rows]` is the
identity here). -/
def run_sql (sql : String) (max_rows : Nat) (b : CircuitBreaker) (retries : Nat)
    (w : MysqlWorld) :
    CircuitBreaker × Nat × Except MysqlError (List String × List (List String)) :=
  match validate_readonly_sql sql with
  | .error m => (b, 0, .error (.validation m))
  | .ok _ => with_mysql_retry b retries max_rows w

lemma async_retry_ok_rows (max_rows retries : Nat) (attempt : Nat)
    (outcomes : List AttemptOutcome) (n : Nat) (cols : List String)
    (rows : List (List String))
    (h : async_retry max_rows retries attempt outcomes = (n, .ok (cols, rows))) :
    rows.length ≤ max_rows := by
  induction outcomes generalizing attempt n with
  | nil => simp [async_retry] at h
  | cons o rest ih =>
    unfold async_retry at h
    cases o with
    | ok cols0 rows0 =>
      simp only [attemptFetch] at h
      have hr : rows = rows0.take max_rows := by
        have := congrArg Prod.snd h
        simp at this
        exact this.2.symm
      rw [hr]
      exact List.length_take_le max_rows rows0
    | err r =>
      simp only [attemptFetch] at h
      by_cases hc : r && decide (attempt < retries)
      · rw [if_pos hc] at h
        have h2 : (async_retry max_rows retries (attempt + 1) rest).2 = .ok (cols, rows) := by
          have := congrArg Prod.snd h
          simpa using this
        exact ih (attempt + 1) (async_retry max_rows retries (attempt + 1) rest).1
          (by rw [← h2])
      · rw [if_neg hc] at h
        simp at h

/-- C4: whenever `run_sql` returns a result, the returned row list has at
most `max_rows` entries, whatever the size of the underlying result set,
the breaker state and the retry budget. -/
theorem run_sql_row_cap (sql : String) (max_rows : Nat) (b : CircuitBreaker)
    (retries : Nat) (w : MysqlWorld) (b' : CircuitBreaker) (n : Nat)
    (cols : List String) (rows : List (List String))
    (h : run_sql sql max_rows b retries w = (b', n, .ok (cols, rows))) :
    rows.length ≤ max_rows := by
  unfold run_sql at h
  cases hv : validate_readonly_sql sql with
  | error m => rw [hv] at h; simp at h
  | ok u =>
    rw [hv] at h
    unfold with_mysql_retry at h
    cases hc : b.check w.check_now with
    | error e => rw [hc] at h; simp at h
    | ok b1 =>
      rw [hc] at h
      cases ha : async_retry max_rows retries 0 w.outcomes with
      | mk n0 res =>
        cases res with
        | ok r =>
          rw [ha] at h
          have : r = (cols, rows) := by
            have := congrArg (fun p => p.2.2) h
            simpa using this
          exact async_retry_ok_rows max_rows retries 0 w.outcomes n0 cols rows
            (by rw [ha, this])
        | error e =>
          rw [ha] at h
          simp at h

/-- Witness for `run_sql_row_cap`: a three-row result set capped to two
rows. -/
theorem run_sql_row_cap_witness :
    run_sql "SELECT 1" 2 (mkCircuitBreaker 3 30) 1
        ⟨[.ok ["a"] [["1"], ["2"], ["3"]]], 0, 0⟩
      = ((mkCircuitBreaker 3 30).record_success, 1, .ok (["a"], [["1"], ["2"]])) ∧
    [["1"], ["2"]].length ≤ 2 :=
  ⟨by decide,
   run_sql_row_cap "SELECT 1" 2 (mkCircuitBreaker 3 30) 1
     ⟨[.ok ["a"] [["1"], ["2"], ["3"]]], 0, 0⟩
     (mkCircuitBreaker 3 30).record_success 1 ["a"] [["1"], ["2"]] (by decide)⟩

/-- C10: if the SQL fails read-only validation, `run_sql` raises the
validation error before the retry/breaker wrapper is entered: the breaker
is returned exactly as it was (same state and `failure_count`), zero
database attempts are made, and no retry budget is consumed — so a
stream of invalid statements can never open the circuit. -/
theorem run_sql_invalid_no_side_effects (sql : String) (max_rows : Nat)
    (b : CircuitBreaker) (retries : Nat) (w : MysqlWorld)
    (h : (validate_readonly_sql sql).isOk = false) :
    ∃ m, run_sql sql max_rows b retries w = (b, 0, .error (.validation m)) := by
  unfold run_sql
  cases hv : validate_readonly_sql sql with
  | error m => exact ⟨m, rfl⟩
  | ok u => rw [hv] at h; simp [Except.isOk, Except.toBool] at h

/-- Witness for `run_sql_invalid_no_side_effects` on `"DELETE FROM x"`
with a breaker one failure away from opening. -/
theorem run_sql_invalid_no_side_effects_witness :
    (validate_readonly_sql "DELETE FROM x").isOk = false ∧
    ∃ m, run_sql "DELETE FROM x" 10
        ((mkCircuitBreaker 2 30).record_failure 7) 1 ⟨[.err true], 8, 9⟩
      = ((mkCircuitBreaker 2 30).record_failure 7, 0, .error (.validation m)) :=
  ⟨by decide,
   run_sql_invalid_no_side_effects "DELETE FROM x" 10
     ((mkCircuitBreaker 2 30).record_failure 7) 1 ⟨[.err true], 8, 9⟩ (by decide)⟩

/-! ## Schema drift monitor (`backend/app/core/schema_monitor.py`)

Schema snapshots are Python dicts `{table: {comment, type, columns}}`,
modelled as association lists over an abstract value type `V`.  The
retrieval index (`get_store(ds_id)`) is an external collaborator with
per-table upsert/delete; it is modelled as an association list from
table name to the pushed document, and `fetch_schema_documents_for_table`
as a function `String → Option D` (`none` models an empty result or a
raised exception, both of which skip the upsert). -/

/-- Lexicographic comparison of two char lists by code point (the
ordering Python `sorted` uses on strings). -/
def charListLt : List Char → List Char → Bool
  | [], [] => false
  | [], _ :: _ => true
  | _ :: _, [] => false
  | a :: as, b :: bs =>
    if a.toNat < b.toNat then true
    else if b.toNat < a.toNat then false
    else charListLt as bs

/-- String comparison by code point. -/
def strLt (a b : String) : Bool := charListLt a.data b.data

/-- Insertion of one string into a sorted list (ascending). -/
def insertStr (x : String) : List String → List String
  | [] => [x]
  | y :: ys => if strLt x y then x :: y :: ys else y :: insertStr x ys

/-- Python `sorted` on a list of strings (insertion sort; only the
ordering and the membership set matter here). -/
def sortStr (l : List String) : List String := l.foldr insertStr []

lemma mem_insertStr (a x : String) (l : List String) :
    a ∈ insertStr x l ↔ a = x ∨ a ∈ l := by
  induction l with
  | nil => simp [insertStr]
  | cons y ys ih =>
    unfold insertStr
    cases h : strLt x y
    · rw [if_neg (by simp [h])]
      simp only [List.mem_cons, ih]
      tauto
    · rw [if_pos (by simp [h])]
      simp

lemma mem_sortStr (a : String) (l : List String) : a ∈ sortStr l ↔ a ∈ l := by
  induction l with
  | nil => simp [sortStr]
  | cons x xs ih =>
    simp only [sortStr, List.foldr_cons] at ih ⊢
    rw [mem_insertStr, ih]
    simp

/-- The key set of a snapshot dict (`set(d.keys())`). -/
def dictKeys {V : Type} (d : List (String × V)) : List String :=
  (d.map Prod.fst).dedup

/-- `d.get(k)` on a snapshot dict. -/
def dictGet {V : Type} [DecidableEq V] (d : List (String × V)) (k : String) : Option V :=
  (d.find? fun p => p.1 = k).map Prod.snd

/-- `_diff_schema(old, new)`: `(added, removed, changed)`, each sorted. -/
def diff_schema {V : Type} [DecidableEq V] (old new : List (String × V)) :
    List String × List String × List String :=
  let oldK := dictKeys old
  let newK := dictKeys new
  let added := sortStr (newK.filter fun k => decide (k ∉ oldK))
  let removed := sortStr (oldK.filter fun k => decide (k ∉ newK))
  let changed := sortStr ((oldK.filter fun k => decide (k ∈ newK)).filter
    fun k => decide (dictGet old k ≠ dictGet new k))
  (added, removed, changed)

/-- `_extract_changed_tables`: `set(added + changed)` minus `removed`,
sorted. -/
def extract_changed_tables (added removed changed : List String) : List String :=
  sortStr (((added ++ changed).dedup).filter fun t => decide (t ∉ removed))

/-- One `upsert_schema_docs` call on the retrieval index for table `t`:
replace the document pushed for `t`, or add it. -/
def upsertDoc {D : Type} [DecidableEq D] (idx : List (String × D)) (t : String) (d : D) :
    List (String × D) :=
  if (idx.map Prod.fst).contains t then
    idx.map fun p => if p.1 = t then (t, d) else p
  else idx ++ [(t, d)]

/-- The per-target upsert loop of `_check_one_datasource`: fetch the
table's documents and push them when nonempty (`none` models both an
empty fetch and a raised-and-swallowed exception). -/
def reindexTargets {D : Type} [DecidableEq D] (fetch : String → Option D)
    (idx : List (String × D)) (targets : List String) : List (String × D) :=
  targets.foldl
    (fun acc t =>
      match fetch t with
      | some d => upsertDoc acc t d
      | none => acc)
    idx

/-- `delete_schema_docs(removed)`: purge every removed table from the
index. -/
def purgeRemoved {D : Type} [DecidableEq D] (idx : List (String × D))
    (removed : List String) : List (String × D) :=
  idx.filter fun p => decide (p.1 ∉ removed)

/-- One `SchemaChangeRecord` as appended by `add_schema_change_log`:
the `{added[], removed[], changed[]}` of one detected drift (the
`created_at` timestamp is stamped by the store and carries no further
information here). -/
structure SchemaChangeRecord where
  added : List String
  removed : List String
  changed : List String
deriving DecidableEq

/-- The drift-handling step of `_check_one_datasource` when a previous
snapshot exists: diff the snapshots and, on a non-empty diff, append one
`SchemaChangeRecord` to the change log (`add_schema_change_log`,
`schema_monitor.py:93`), upsert every table of `_extract_changed_tables`
into the index and purge the removed ones; on an empty diff both the
index and the log are untouched.  Returns the updated index and the
updated change log. -/
def schema_check_reindex {V D : Type} [DecidableEq V] [DecidableEq D]
    (fetch : String → Option D) (idx : List (String × D))
    (log : List SchemaChangeRecord)
    (prev cur : List (String × V)) :
    List (String × D) × List SchemaChangeRecord :=
  let d := diff_schema prev cur
  if d.1 = [] ∧ d.2.1 = [] ∧ d.2.2 = [] then (idx, log)
  else
    let targets := extract_changed_tables d.1 d.2.1 d.2.2
    (purgeRemoved (reindexTargets fetch idx targets) d.2.1,
     log ++ [⟨d.1, d.2.1, d.2.2⟩])

lemma dictGet_cons {D : Type} [DecidableEq D] (p : String × D) (l : List (String × D))
    (t : String) :
    dictGet (p :: l) t = if p.1 = t then some p.2 else dictGet l t := by
  unfold dictGet
  by_cases h : p.1 = t
  · rw [List.find?_cons_of_pos _ (by simp [h]), if_pos h]
    rfl
  · rw [List.find?_cons_of_neg _ (by simp [h]), if_neg h]

lemma dictGet_upsertDoc_ne {D : Type} [DecidableEq D] (idx : List (String × D))
    (t t' : String) (d : D) (h : t ≠ t') :
    dictGet (upsertDoc idx t' d) t = dictGet idx t := by
  unfold upsertDoc
  by_cases hc : (idx.map Prod.fst).contains t'
  · rw [if_pos hc]
    clear hc
    induction idx with
    | nil => rfl
    | cons p ps ih =>
      rw [List.map_cons]
      by_cases hp : p.1 = t'
      · rw [if_pos hp, dictGet_cons, dictGet_cons,
          if_neg (show ¬((t', d).1 = t) from fun hq => h hq.symm),
          if_neg (show ¬(p.1 = t) from fun hq => h (hq.symm.trans hp))]
        exact ih
      · rw [if_neg hp, dictGet_cons, dictGet_cons]
        by_cases hq : p.1 = t
        · rw [if_pos hq, if_pos hq]
        · rw [if_neg hq, if_neg hq]
          exact ih
  · rw [if_neg hc]
    clear hc
    induction idx with
    | nil =>
      rw [List.nil_append, dictGet_cons,
        if_neg (show ¬((t', d).1 = t) from fun hq => h hq.symm)]
    | cons p ps ih =>
      rw [List.cons_append, dictGet_cons, dictGet_cons]
      by_cases hq : p.1 = t
      · rw [if_pos hq, if_pos hq]
      · rw [if_neg hq, if_neg hq]
        exact ih

lemma dictGet_reindexTargets_not_mem {D : Type} [DecidableEq D]
    (fetch : String → Option D) (targets : List String) :
    ∀ (idx : List (String × D)) (t : String), t ∉ targets →
      dictGet (reindexTargets fetch idx targets) t = dictGet idx t := by
  induction targets with
  | nil => intro idx t _; rfl
  | cons x xs ih =>
    intro idx t h
    have hne : t ≠ x := fun hq => h (hq ▸ List.mem_cons_self x xs)
    have hxs : t ∉ xs := fun hq => h (List.mem_cons_of_mem x hq)
    unfold reindexTargets
    rw [List.foldl_cons]
    cases hf : fetch x with
    | none =>
      simp only [hf]
      exact ih idx t hxs
    | some d =>
      simp only [hf]
      rw [show List.foldl _ (upsertDoc idx x d) xs
            = reindexTargets fetch (upsertDoc idx x d) xs from rfl]
      rw [ih (upsertDoc idx x d) t hxs]
      exact dictGet_upsertDoc_ne idx t x d hne

lemma dictGet_purgeRemoved_not_mem {D : Type} [DecidableEq D]
    (idx : List (String × D)) (removed : List String) (t : String) (h : t ∉ removed) :
    dictGet (purgeRemoved idx removed) t = dictGet idx t := by
  unfold purgeRemoved
  induction idx with
  | nil => rfl
  | cons p ps ih =>
    rw [List.filter_cons]
    by_cases hp : p.1 ∉ removed
    · rw [if_pos (by simpa using hp), dictGet_cons, dictGet_cons]
      by_cases hq : p.1 = t
      · rw [if_pos hq, if_pos hq]
      · rw [if_neg hq, if_neg hq]
        exact ih
    · rw [if_neg (by simpa using hp), dictGet_cons,
        if_neg (show ¬(p.1 = t) from fun hq => hp (by rw [hq]; simpa using h))]
      exact ih

lemma dictGet_purgeRemoved_mem {D : Type} [DecidableEq D]
    (idx : List (String × D)) (removed : List String) (t : String) (h : t ∈ removed) :
    dictGet (purgeRemoved idx removed) t = none := by
  unfold purgeRemoved dictGet
  rw [Option.map_eq_none', List.find?_eq_none]
  intro p hp
  rw [List.mem_filter] at hp
  simp only [decide_eq_true_eq] at hp ⊢
  intro hq
  exact hp.2 (hq ▸ h)

lemma mem_diff_added {V : Type} [DecidableEq V] (old new : List (String × V)) (k : String) :
    k ∈ (diff_schema old new).1 ↔ k ∈ dictKeys new ∧ k ∉ dictKeys old := by
  unfold diff_schema
  rw [mem_sortStr, List.mem_filter]
  simp

lemma mem_diff_removed {V : Type} [DecidableEq V] (old new : List (String × V)) (k : String) :
    k ∈ (diff_schema old new).2.1 ↔ k ∈ dictKeys old ∧ k ∉ dictKeys new := by
  unfold diff_schema
  rw [mem_sortStr, List.mem_filter]
  simp

lemma mem_diff_changed {V : Type} [DecidableEq V] (old new : List (String × V)) (k : String) :
    k ∈ (diff_schema old new).2.2 ↔
      (k ∈ dictKeys old ∧ k ∈ dictKeys new) ∧ dictGet old k ≠ dictGet new k := by
  unfold diff_schema
  rw [mem_sortStr, List.mem_filter, List.mem_filter]
  simp [and_assoc]

lemma mem_extract_changed (added removed changed : List String) (k : String) :
    k ∈ extract_changed_tables added removed changed ↔
      (k ∈ added ∨ k ∈ changed) ∧ k ∉ removed := by
  unfold extract_changed_tables
  rw [mem_sortStr, List.mem_filter, List.mem_dedup, List.mem_append]
  simp

/-- C9: the drift diff computes `added = keys(new) − keys(old)`,
`removed = keys(old) − keys(new)` and `changed = {k ∈ both : old[k] ≠
new[k]}`; the partial-reindex target set is exactly `added ∪ changed`;
a table outside `added ∪ changed ∪ removed` keeps its index entry
untouched; every removed table is purged from the index; on any
non-empty diff exactly one `SchemaChangeRecord` carrying that diff is
appended to the change log (and on an empty diff neither the index nor
the log changes); and on the spec's concrete snapshots the diff is
`added=[T2], removed=[], changed=[T1]` with reindex set exactly
`{T1, T2}` and exactly that record appended. -/
theorem schema_diff_partial_reindex {V D : Type} [DecidableEq V] [DecidableEq D]
    (prev cur : List (String × V)) (fetch : String → Option D)
    (idx : List (String × D)) (log : List SchemaChangeRecord) (t u : String)
    (hnt : t ∉ extract_changed_tables (diff_schema prev cur).1
      (diff_schema prev cur).2.1 (diff_schema prev cur).2.2)
    (hnr : t ∉ (diff_schema prev cur).2.1)
    (hu : u ∈ (diff_schema prev cur).2.1) :
    (∀ k, k ∈ (diff_schema prev cur).1 ↔ k ∈ dictKeys cur ∧ k ∉ dictKeys prev) ∧
    (∀ k, k ∈ (diff_schema prev cur).2.1 ↔ k ∈ dictKeys prev ∧ k ∉ dictKeys cur) ∧
    (∀ k, k ∈ (diff_schema prev cur).2.2 ↔
      (k ∈ dictKeys prev ∧ k ∈ dictKeys cur) ∧ dictGet prev k ≠ dictGet cur k) ∧
    (∀ k, k ∈ extract_changed_tables (diff_schema prev cur).1
        (diff_schema prev cur).2.1 (diff_schema prev cur).2.2
      ↔ k ∈ (diff_schema prev cur).1 ∨ k ∈ (diff_schema prev cur).2.2) ∧
    dictGet (schema_check_reindex fetch idx log prev cur).1 t = dictGet idx t ∧
    dictGet (schema_check_reindex fetch idx log prev cur).1 u = none ∧
    ((diff_schema prev cur).1 ≠ [] ∨ (diff_schema prev cur).2.1 ≠ []
        ∨ (diff_schema prev cur).2.2 ≠ [] →
      (schema_check_reindex fetch idx log prev cur).2
        = log ++ [⟨(diff_schema prev cur).1, (diff_schema prev cur).2.1,
            (diff_schema prev cur).2.2⟩]) ∧
    ((diff_schema prev cur).1 = [] ∧ (diff_schema prev cur).2.1 = []
        ∧ (diff_schema prev cur).2.2 = [] →
      schema_check_reindex fetch idx log prev cur = (idx, log)) ∧
    (diff_schema [("T1", "A")] [("T1", "B"), ("T2", "C")] = (["T2"], [], ["T1"]) ∧
     extract_changed_tables ["T2"] [] ["T1"] = ["T1", "T2"] ∧
     (schema_check_reindex (fun s => some (s ++ "-doc"))
         ([] : List (String × String)) ([] : List SchemaChangeRecord)
         [("T1", "A")] [("T1", "B"), ("T2", "C")]).2
       = [⟨["T2"], [], ["T1"]⟩]) := by
  refine ⟨mem_diff_added prev cur, mem_diff_removed prev cur, mem_diff_changed prev cur,
    ?_, ?_, ?_, ?_, ?_, by decide, by decide, by decide⟩
  · intro k
    rw [mem_extract_changed]
    constructor
    · exact fun h => h.1
    · intro h
      refine ⟨h, ?_⟩
      intro hrem
      rw [mem_diff_removed] at hrem
      rcases h with h | h
      · rw [mem_diff_added] at h
        exact h.2 hrem.1
      · rw [mem_diff_changed] at h
        exact hrem.2 h.1.2
  · unfold schema_check_reindex
    by_cases he : (diff_schema prev cur).1 = [] ∧ (diff_schema prev cur).2.1 = []
        ∧ (diff_schema prev cur).2.2 = []
    · rw [if_pos he]
    · rw [if_neg he]
      dsimp only
      rw [dictGet_purgeRemoved_not_mem _ _ _ hnr]
      exact dictGet_reindexTargets_not_mem fetch _ idx t hnt
  · unfold schema_check_reindex
    by_cases he : (diff_schema prev cur).1 = [] ∧ (diff_schema prev cur).2.1 = []
        ∧ (diff_schema prev cur).2.2 = []
    · exact absurd (he.2.1 ▸ hu) (List.not_mem_nil u)
    · rw [if_neg he]
      dsimp only
      exact dictGet_purgeRemoved_mem _ _ _ hu
  · intro hne
    unfold schema_check_reindex
    rw [if_neg (by tauto)]
  · intro he
    unfold schema_check_reindex
    rw [if_pos he]

/-- Witness for `schema_diff_partial_reindex`: previous snapshot
`{T1: A, T3: X}`, current `{T1: B, T2: C}`, untouched table `T0`,
removed table `T3`, and the change record for that diff appended to an
initially empty log. -/
theorem schema_diff_partial_reindex_witness :
    ("T0" ∉ extract_changed_tables
        (diff_schema [("T1", "A"), ("T3", "X")] [("T1", "B"), ("T2", "C")]).1
        (diff_schema [("T1", "A"), ("T3", "X")] [("T1", "B"), ("T2", "C")]).2.1
        (diff_schema [("T1", "A"), ("T3", "X")] [("T1", "B"), ("T2", "C")]).2.2 ∧
     "T0" ∉ (diff_schema [("T1", "A"), ("T3", "X")] [("T1", "B"), ("T2", "C")]).2.1 ∧
     "T3" ∈ (diff_schema [("T1", "A"), ("T3", "X")] [("T1", "B"), ("T2", "C")]).2.1) ∧
    (dictGet (schema_check_reindex (fun s => some (s ++ "-doc")) [("T0", "keep")]
        ([] : List SchemaChangeRecord)
        [("T1", "A"), ("T3", "X")] [("T1", "B"), ("T2", "C")]).1 "T0"
      = dictGet [("T0", "keep")] "T0" ∧
     dictGet (schema_check_reindex (fun s => some (s ++ "-doc")) [("T0", "keep")]
        ([] : List SchemaChangeRecord)
        [("T1", "A"), ("T3", "X")] [("T1", "B"), ("T2", "C")]).1 "T3" = none ∧
     (schema_check_reindex (fun s => some (s ++ "-doc")) [("T0", "keep")]
        ([] : List SchemaChangeRecord)
        [("T1", "A"), ("T3", "X")] [("T1", "B"), ("T2", "C")]).2
      = ([] : List SchemaChangeRecord)
        ++ [⟨(diff_schema [("T1", "A"), ("T3", "X")] [("T1", "B"), ("T2", "C")]).1,
            (diff_schema [("T1", "A"), ("T3", "X")] [("T1", "B"), ("T2", "C")]).2.1,
            (diff_schema [("T1", "A"), ("T3", "X")] [("T1", "B"), ("T2", "C")]).2.2⟩]) :=
  ⟨⟨by decide, by decide, by decide⟩,
   ⟨(schema_diff_partial_reindex [("T1", "A"), ("T3", "X")] [("T1", "B"), ("T2", "C")]
       (fun s => some (s ++ "-doc")) [("T0", "keep")] [] "T0" "T3"
       (by decide) (by decide) (by decide)).2.2.2.2.1,
    (schema_diff_partial_reindex [("T1", "A"), ("T3", "X")] [("T1", "B"), ("T2", "C")]
       (fun s => some (s ++ "-doc")) [("T0", "keep")] [] "T0" "T3"
       (by decide) (by decide) (by decide)).2.2.2.2.2.1,
    (schema_diff_partial_reindex [("T1", "A"), ("T3", "X")] [("T1", "B"), ("T2", "C")]
       (fun s => some (s ++ "-doc")) [("T0", "keep")] [] "T0" "T3"
       (by decide) (by decide) (by decide)).2.2.2.2.2.2.1 (Or.inl (by decide))⟩⟩

/-! ## Chat orchestration session (`backend/app/api/chat.py`, `chat_sse.gen`)

The async generator `gen()` is modelled as a pure function from an
environment of collaborator outcomes to the list of SSE events it
yields, the list of SQL texts passed to `run_sql`, and whether it was
terminated by an uncaught exception.  Event payloads keep only the
fields the claims speak about (the `where` and `tables` keys of `error`
events, the SQL text of `sql` events, the row count of the `table`
event, the `ok` flag of `done`); `mask_sensitive_rows` preserves the
number of rows and the column list, so the `table` event's `row_count`
is the length of the unmasked row list.  Collaborators whose exceptions
the generator handles are environment outcomes (`list_tables`,
`generate_sql`, `run_sql`); collaborators that swallow their own
exceptions and only influence whether an optional event is emitted
(`explain_sql`, `generate_safety_tips`, `analyze_stream`,
`suggest_sql_improvement`, `suggest_sql_fix`, `suggest_echarts_option`)
are Booleans or counts. -/

/-- The SSE events of one chat session. -/
inductive ChatEvent where
  | message
  | status (stage : String) (attempt : Option Nat)
  | errorEv (whereAt : String) (tables : List String)
  | sqlEv (sql : String) (retry_rewrite : Bool)
  | sqlExplain
  | sqlFix
  | tableEv (row_count : Nat)
  | warning
  | sqlSafety
  | chart
  | analysisDelta
  | analysisDone
  | sqlSuggest
  | done (ok : Bool)
deriving DecidableEq

/-- Outcome of one `generate_sql` call. -/
inductive GenOutcome where
  | ok (sql : String)
  | circuitOpen
  | exn
deriving DecidableEq

/-- Outcome of one `run_sql` call seen from `chat_sse` (columns, rows
and elapsed milliseconds on success; `CircuitOpenError`; or any other
exception). -/
inductive RunOutcome where
  | ok (cols : List String) (rows : List (List String)) (elapsed_ms : Nat)
  | circuitOpen
  | err (msg : String)
deriving DecidableEq

/-- The environment of one session: everything the generator observes
from its collaborators.  The outcome lists are consumed in call order;
an exhausted list behaves as a failing call (`nextRun`/`nextGen`). -/
structure ChatEnv where
  cfg_ok : Bool
  base_tables : Except String (List String)
  upload_names : List String
  requested_tables : List String
  gen_results : List GenOutcome
  explain_nonempty : Bool
  run_results : List RunOutcome
  safety_nonempty : Bool
  analysis_chunks : Nat
  suggest_nonempty : Bool
  slow_threshold : Nat
deriving DecidableEq

/-- `set(extract_table_names(sql))` — the referenced tables of a
candidate statement. -/
def usedTables (sql : String) : List String := (extract_table_names sql).dedup

/-- `t["name"].startswith("tmp_")`. -/
def startsTmp (s : String) : Bool := "tmp_".data.isPrefixOf s.data

/-- `available_tables`: base tables without the `tmp_` prefix, plus the
caller's uploaded tables. -/
def availableTables (env : ChatEnv) : List String :=
  (match env.base_tables with
   | .ok ts => ts.filter fun t => !(startsTmp t)
   | .error _ => []) ++ env.upload_names

/-- `requested_tables = {t for t in (req.allowed_tables or []) if t}`. -/
def requestedSet (env : ChatEnv) : List String :=
  (env.requested_tables.filter fun t => decide (t ≠ "")).dedup

/-- The allowed table set of the session: the validated caller-chosen
scope when one was given, otherwise every available table. -/
def sessionAllowed (env : ChatEnv) : List String :=
  if requestedSet env ≠ [] then requestedSet env else availableTables env

/-- How the execution loop ended: a successful `run_sql` (columns, rows,
elapsed), a `break` with `last_err` set, or an uncaught exception. -/
inductive LoopExit where
  | success (cols : List String) (rows : List (List String)) (elapsed_ms : Nat)
  | failed
  | exn
deriving DecidableEq

/-- Result of the execution loop: its events, the SQL texts passed to
`run_sql` (in order), and how it ended. -/
structure LoopOut where
  events : List ChatEvent
  executed : List String
  exit : LoopExit
deriving DecidableEq

/-- Consume the next `run_sql` outcome. -/
def nextRun : List RunOutcome → RunOutcome × List RunOutcome
  | [] => (.err "", [])
  | r :: rs => (r, rs)

/-- Consume the next `generate_sql` outcome. -/
def nextGen : List GenOutcome → GenOutcome × List GenOutcome
  | [] => (.exn, [])
  | g :: gs => (g, gs)

/-- The `for attempt in range(MAX_SQL_RETRY + 1)` loop of `chat_sse.gen`:
on each attempt the allowlist is re-checked on the current SQL before any
execution; an unauthorized statement emits the `sql_allowlist` error with
exactly the disallowed names and breaks; otherwise `run_sql` is invoked
and, on an ordinary failure with budget remaining, the statement is
regenerated and the loop continues.  The first argument of the recursion
is the number of loop iterations remaining (`maxRetry + 1 - attempt`). -/
def execLoop (allowed : List String) (maxRetry : Nat) :
    Nat → Nat → String → List GenOutcome → List RunOutcome → LoopOut
  | 0, _, _, _, _ => ⟨[], [], .failed⟩
  | rem + 1, attempt, sql, gens, runs =>
    if usedTables sql ≠ [] ∧ ¬ ∀ t ∈ usedTables sql, t ∈ allowed then
      ⟨[.errorEv "sql_allowlist"
          (sortStr ((usedTables sql).filter fun t => decide (t ∉ allowed)))],
       [], .failed⟩
    else
      match nextRun runs with
      | (RunOutcome.ok cols rows elapsed, _) =>
        ⟨[.status "sql_execution" (some attempt)], [sql], .success cols rows elapsed⟩
      | (RunOutcome.circuitOpen, _) =>
        ⟨[.status "sql_execution" (some attempt), .errorEv "sql_execution" []],
         [sql], .failed⟩
      | (RunOutcome.err _, runs2) =>
        if maxRetry ≤ attempt then
          ⟨[.status "sql_execution" (some attempt), .errorEv "sql_execution" []],
           [sql], .failed⟩
        else
          match nextGen gens with
          | (GenOutcome.ok sql2, gens2) =>
            let r := execLoop allowed maxRetry rem (attempt + 1) sql2 gens2 runs2
            ⟨[.status "sql_execution" (some attempt), .errorEv "sql_execution" [],
              .sqlEv sql2 true] ++ r.events, sql :: r.executed, r.exit⟩
          | (GenOutcome.circuitOpen, _) =>
            ⟨[.status "sql_execution" (some attempt), .errorEv "sql_execution" [],
              .errorEv "llm_sql" []], [sql], .failed⟩
          | (GenOutcome.exn, _) =>
            ⟨[.status "sql_execution" (some attempt), .errorEv "sql_execution" []],
             [sql], .exn⟩

/-- Result of one session: the events yielded (in order), the SQL texts
passed to `run_sql`, and whether the generator was terminated by an
uncaught exception instead of running to completion. -/
structure SessionRun where
  events : List ChatEvent
  executed : List String
  raised : Bool
deriving DecidableEq

/-- The rest of `chat_sse.gen` once the allowed table set has been
resolved: the `sql_generation` status, the first `generate_sql` call
(only `CircuitOpenError` is caught there — any other exception kills the
generator), the `sql`/`sql_explain` events, the execution loop, and the
post-processing tail (`table`, optional `warning`/`sql_safety`, chart and
analysis stages, optional `sql_suggest`, the best-effort persistence
writes which yield nothing, and the terminal `done`). -/
def chatAfterScope (env : ChatEnv) (maxRetry : Nat) (allowed : List String) :
    SessionRun :=
  let pre := [ChatEvent.message, ChatEvent.status "schema_retrieval" none,
              ChatEvent.status "sql_generation" none]
  match nextGen env.gen_results with
  | (GenOutcome.circuitOpen, _) =>
    ⟨pre ++ [.errorEv "llm_sql" [], .done false], [], false⟩
  | (GenOutcome.exn, _) => ⟨pre, [], true⟩
  | (GenOutcome.ok sql, gens) =>
    let ev1 := pre ++ [ChatEvent.sqlEv sql false]
      ++ (if env.explain_nonempty then [ChatEvent.sqlExplain] else [])
    let lr := execLoop allowed maxRetry (maxRetry + 1) 0 sql gens env.run_results
    match lr.exit with
    | LoopExit.exn => ⟨ev1 ++ lr.events, lr.executed, true⟩
    | LoopExit.failed =>
      ⟨ev1 ++ lr.events ++ [ChatEvent.sqlFix, ChatEvent.done false],
       lr.executed, false⟩
    | LoopExit.success _ rows elapsed =>
      ⟨ev1 ++ lr.events
        ++ [ChatEvent.tableEv rows.length]
        ++ (if env.slow_threshold ≤ elapsed then [ChatEvent.warning] else [])
        ++ (if env.safety_nonempty then [ChatEvent.sqlSafety] else [])
        ++ [ChatEvent.status "chart_generation" none, ChatEvent.chart,
            ChatEvent.status "analysis_generation" none]
        ++ List.replicate env.analysis_chunks ChatEvent.analysisDelta
        ++ [ChatEvent.analysisDone]
        ++ (if env.suggest_nonempty then [ChatEvent.sqlSuggest] else [])
        ++ [ChatEvent.done true],
       lr.executed, false⟩

/-- `chat_sse.gen` from `chat.py`: the `message` and `schema_retrieval`
events, the in-generator `raise HTTPException` when the resolved
datasource configuration is incomplete, the guarded `list_tables` call,
the scope validation of a caller-chosen table list, then
`chatAfterScope` with the resolved allowed set. -/
def chat_gen (env : ChatEnv) (maxRetry : Nat) : SessionRun :=
  let pre := [ChatEvent.message, ChatEvent.status "schema_retrieval" none]
  if !env.cfg_ok then ⟨pre, [], true⟩
  else
    match env.base_tables with
    | .error _ =>
      ⟨pre ++ [.errorEv "schema_tables" [], .done false], [], false⟩
    | .ok _ =>
      if requestedSet env ≠ [] then
        if sortStr ((requestedSet env).filter
            fun t => decide (t ∉ availableTables env)) ≠ [] then
          ⟨pre ++ [.errorEv "scope_validation"
              (sortStr ((requestedSet env).filter
                fun t => decide (t ∉ availableTables env))),
            .done false], [], false⟩
        else chatAfterScope env maxRetry (requestedSet env)
      else chatAfterScope env maxRetry (availableTables env)


lemma execLoop_executed_allowed (allowed : List String) (maxRetry : Nat) :
    ∀ (rem attempt : Nat) (sql : String) (gens : List GenOutcome)
      (runs : List RunOutcome) (s : String),
      s ∈ (execLoop allowed maxRetry rem attempt sql gens runs).executed →
      ∀ t ∈ usedTables s, t ∈ allowed := by
  intro rem
  induction rem with
  | zero =>
    intro attempt sql gens runs s hs
    simp [execLoop] at hs
  | succ rem ih =>
    intro attempt sql gens runs s hs t ht
    simp only [execLoop] at hs
    by_cases hg : usedTables sql ≠ [] ∧ ¬ ∀ u ∈ usedTables sql, u ∈ allowed
    · rw [if_pos hg] at hs
      simp at hs
    · rw [if_neg hg] at hs
      have hok : ∀ u ∈ usedTables sql, u ∈ allowed := by
        by_cases he : usedTables sql = []
        · intro u hu
          rw [he] at hu
          exact absurd hu (List.not_mem_nil u)
        · by_contra hnall
          exact hg ⟨he, hnall⟩
      cases hnr : nextRun runs with
      | mk r runs2 =>
        rw [hnr] at hs
        cases r with
        | ok cols rows elapsed =>
          simp at hs
          exact hok t (hs ▸ ht)
        | circuitOpen =>
          simp at hs
          exact hok t (hs ▸ ht)
        | err m =>
          dsimp only at hs
          by_cases hat : maxRetry ≤ attempt
          · rw [if_pos hat] at hs
            simp at hs
            exact hok t (hs ▸ ht)
          · rw [if_neg hat] at hs
            cases hng : nextGen gens with
            | mk g gens2 =>
              rw [hng] at hs
              cases g with
              | ok sql2 =>
                simp at hs
                rcases hs with hs | hs
                · exact hok t (hs ▸ ht)
                · exact ih (attempt + 1) sql2 gens2 runs2 s hs t ht
              | circuitOpen =>
                simp at hs
                exact hok t (hs ▸ ht)
              | exn =>
                simp at hs
                exact hok t (hs ▸ ht)

lemma chatAfterScope_executed_allowed (env : ChatEnv) (maxRetry : Nat)
    (allowed : List String) (s : String)
    (hs : s ∈ (chatAfterScope env maxRetry allowed).executed) :
    ∀ t ∈ usedTables s, t ∈ allowed := by
  unfold chatAfterScope at hs
  cases hng : nextGen env.gen_results with
  | mk g gens =>
    rw [hng] at hs
    cases g with
    | circuitOpen => simp at hs
    | exn => simp at hs
    | ok sql =>
      dsimp only at hs
      cases hex : (execLoop allowed maxRetry (maxRetry + 1) 0 sql gens
          env.run_results).exit with
      | success cols rows elapsed =>
        rw [hex] at hs
        dsimp only at hs
        exact execLoop_executed_allowed allowed maxRetry (maxRetry + 1) 0 sql gens
          env.run_results s hs
      | failed =>
        rw [hex] at hs
        dsimp only at hs
        exact execLoop_executed_allowed allowed maxRetry (maxRetry + 1) 0 sql gens
          env.run_results s hs
      | exn =>
        rw [hex] at hs
        dsimp only at hs
        exact execLoop_executed_allowed allowed maxRetry (maxRetry + 1) 0 sql gens
          env.run_results s hs

lemma chat_gen_executed_allowed (env : ChatEnv) (maxRetry : Nat) (s : String)
    (hs : s ∈ (chat_gen env maxRetry).executed) :
    ∀ t ∈ usedTables s, t ∈ sessionAllowed env := by
  unfold chat_gen at hs
  cases hcfg : env.cfg_ok
  · rw [hcfg] at hs
    simp at hs
  · rw [hcfg] at hs
    simp only [Bool.not_true, Bool.false_eq_true, if_false] at hs
    cases hbt : env.base_tables with
    | error e =>
      rw [hbt] at hs
      simp at hs
    | ok ts =>
      rw [hbt] at hs
      dsimp only at hs
      by_cases hreq : requestedSet env ≠ []
      · rw [if_pos hreq] at hs
        by_cases hinv : sortStr ((requestedSet env).filter
            fun t => decide (t ∉ availableTables env)) ≠ []
        · rw [if_pos hinv] at hs
          simp at hs
        · rw [if_neg hinv] at hs
          have h2 := chatAfterScope_executed_allowed env maxRetry (requestedSet env) s hs
          unfold sessionAllowed
          rw [if_pos hreq]
          exact h2
      · rw [if_neg hreq] at hs
        have h2 := chatAfterScope_executed_allowed env maxRetry (availableTables env) s hs
        unfold sessionAllowed
        rw [if_neg hreq]
        exact h2

/-- C1: (i) every SQL statement ever passed to `run_sql` by the execution
loop satisfies the allowlist check — the check is re-evaluated on each
attempt's current statement, regenerated ones included, before that
attempt executes; (ii) when the current statement references tables
outside the allowed set, the loop emits exactly one `sql_allowlist` error
whose table list names exactly the referenced-minus-allowed tables, and
passes nothing to `run_sql`; (iii) at the session level, every executed
statement's referenced tables are inside the session's allowed set; and
(iv) on the spec's example (allowed `{A,B,C}`, referenced `{A,D}`) the
loop rejects with disallowed `[D]` and executes nothing. -/
theorem chat_allowlist_authorization (allowed : List String)
    (maxRetry rem attempt : Nat) (sql : String) (gens : List GenOutcome)
    (runs : List RunOutcome)
    (hbad : ¬ ∀ t ∈ usedTables sql, t ∈ allowed) :
    (∀ (rem' attempt' : Nat) (sql' : String) (gens' : List GenOutcome)
       (runs' : List RunOutcome) (s : String),
       s ∈ (execLoop allowed maxRetry rem' attempt' sql' gens' runs').executed →
       ∀ t ∈ usedTables s, t ∈ allowed) ∧
    ((execLoop allowed maxRetry (rem + 1) attempt sql gens runs).executed = [] ∧
     (execLoop allowed maxRetry (rem + 1) attempt sql gens runs).events
       = [.errorEv "sql_allowlist"
           (sortStr ((usedTables sql).filter fun t => decide (t ∉ allowed)))] ∧
     (execLoop allowed maxRetry (rem + 1) attempt sql gens runs).exit = .failed ∧
     ∀ t, t ∈ sortStr ((usedTables sql).filter fun t => decide (t ∉ allowed))
       ↔ t ∈ usedTables sql ∧ t ∉ allowed) ∧
    (∀ (env : ChatEnv) (mr : Nat) (s : String),
       s ∈ (chat_gen env mr).executed → ∀ t ∈ usedTables s, t ∈ sessionAllowed env) ∧
    execLoop ["A", "B", "C"] 2 3 0 "SELECT x FROM A JOIN D ON A.id = D.id" [] []
      = ⟨[.errorEv "sql_allowlist" ["D"]], [], .failed⟩ := by
  have hne : usedTables sql ≠ [] := by
    intro he
    exact hbad fun t ht => absurd (he ▸ ht) (List.not_mem_nil t)
  have hguard : usedTables sql ≠ [] ∧ ¬ ∀ t ∈ usedTables sql, t ∈ allowed := ⟨hne, hbad⟩
  refine ⟨fun rem' => execLoop_executed_allowed allowed maxRetry rem', ?_,
    fun env mr => chat_gen_executed_allowed env mr, by decide⟩
  simp only [execLoop]
  rw [if_pos hguard]
  refine ⟨rfl, rfl, rfl, ?_⟩
  intro t
  rw [mem_sortStr, List.mem_filter]
  simp

/-- Witness for `chat_allowlist_authorization` at the spec's example. -/
theorem chat_allowlist_authorization_witness :
    (¬ ∀ t ∈ usedTables "SELECT x FROM A JOIN D ON A.id = D.id",
        t ∈ ["A", "B", "C"]) ∧
    ((execLoop ["A", "B", "C"] 2 (2 + 1) 0 "SELECT x FROM A JOIN D ON A.id = D.id"
        [] []).executed = [] ∧
     (execLoop ["A", "B", "C"] 2 (2 + 1) 0 "SELECT x FROM A JOIN D ON A.id = D.id"
        [] []).events
       = [.errorEv "sql_allowlist"
           (sortStr ((usedTables "SELECT x FROM A JOIN D ON A.id = D.id").filter
             fun t => decide (t ∉ ["A", "B", "C"])))]) :=
  ⟨by decide,
   ⟨(chat_allowlist_authorization ["A", "B", "C"] 2 2 0
       "SELECT x FROM A JOIN D ON A.id = D.id" [] [] (by decide)).2.1.1,
    (chat_allowlist_authorization ["A", "B", "C"] 2 2 0
       "SELECT x FROM A JOIN D ON A.id = D.id" [] [] (by decide)).2.1.2.1⟩⟩

/-- Is an event the terminal `done` event? -/
def isDoneEvent : ChatEvent → Bool
  | .done _ => true
  | _ => false

/-- Number of `done` events in a stream. -/
def doneCount (evs : List ChatEvent) : Nat := evs.countP isDoneEvent

lemma doneCount_append (l1 l2 : List ChatEvent) :
    doneCount (l1 ++ l2) = doneCount l1 + doneCount l2 :=
  List.countP_append _ _ _

lemma doneCount_replicate_delta (n : Nat) :
    doneCount (List.replicate n ChatEvent.analysisDelta) = 0 := by
  induction n with
  | zero => rfl
  | succ n ih =>
    rw [List.replicate_succ, doneCount, List.countP_cons]
    rw [doneCount] at ih
    rw [ih]
    rfl

lemma execLoop_no_done (allowed : List String) (maxRetry : Nat) :
    ∀ (rem attempt : Nat) (sql : String) (gens : List GenOutcome)
      (runs : List RunOutcome),
      doneCount (execLoop allowed maxRetry rem attempt sql gens runs).events = 0 := by
  intro rem
  induction rem with
  | zero => intro attempt sql gens runs; rfl
  | succ rem ih =>
    intro attempt sql gens runs
    simp only [execLoop]
    by_cases hg : usedTables sql ≠ [] ∧ ¬ ∀ t ∈ usedTables sql, t ∈ allowed
    · rw [if_pos hg]
      rfl
    · rw [if_neg hg]
      cases hnr : nextRun runs with
      | mk r runs2 =>
        cases r with
        | ok cols rows elapsed => rfl
        | circuitOpen => rfl
        | err m =>
          dsimp only
          by_cases hat : maxRetry ≤ attempt
          · rw [if_pos hat]
            rfl
          · rw [if_neg hat]
            cases hng : nextGen gens with
            | mk g gens2 =>
              cases g with
              | ok sql2 =>
                dsimp only
                rw [doneCount_append]
                rw [ih (attempt + 1) sql2 gens2 runs2]
                rfl
              | circuitOpen => rfl
              | exn => rfl

lemma countP_done_replicate_delta (n : Nat) :
    List.countP isDoneEvent (List.replicate n ChatEvent.analysisDelta) = 0 :=
  doneCount_replicate_delta n

lemma countP_done_execLoop (allowed : List String) (maxRetry rem attempt : Nat)
    (sql : String) (gens : List GenOutcome) (runs : List RunOutcome) :
    List.countP isDoneEvent
      (execLoop allowed maxRetry rem attempt sql gens runs).events = 0 :=
  execLoop_no_done allowed maxRetry rem attempt sql gens runs

lemma chatAfterScope_done (env : ChatEnv) (maxRetry : Nat) (allowed : List String)
    (h : (chatAfterScope env maxRetry allowed).raised = false) :
    doneCount (chatAfterScope env maxRetry allowed).events = 1 ∧
    ∃ b, (chatAfterScope env maxRetry allowed).events.getLast?
      = some (ChatEvent.done b) := by
  unfold chatAfterScope at h ⊢
  cases hng : nextGen env.gen_results with
  | mk g gens =>
    rw [hng] at h
    cases g with
    | circuitOpen => exact ⟨rfl, ⟨false, rfl⟩⟩
    | exn => simp at h
    | ok sql =>
      dsimp only at h ⊢
      cases hex : (execLoop allowed maxRetry (maxRetry + 1) 0 sql gens
          env.run_results).exit with
      | exn =>
        rw [hex] at h
        simp at h
      | failed =>
        dsimp only
        constructor
        · simp [doneCount, List.countP_append, List.countP_cons, isDoneEvent,
            countP_done_execLoop, apply_ite (List.countP isDoneEvent)]
        · refine ⟨false, ?_⟩
          rw [show [ChatEvent.sqlFix, ChatEvent.done false]
                = [ChatEvent.sqlFix] ++ [ChatEvent.done false] from rfl,
             ← List.append_assoc, List.getLast?_concat]
      | success cols rows elapsed =>
        dsimp only
        constructor
        · simp [doneCount, List.countP_append, List.countP_cons, isDoneEvent,
            countP_done_execLoop, countP_done_replicate_delta,
            apply_ite (List.countP isDoneEvent)]
        · exact ⟨true, List.getLast?_concat _⟩

/-- C2 counterexample environment: the resolved datasource configuration
is missing a field, so `gen()` reaches the in-generator
`raise HTTPException(...)` at `chat.py:84` after the `message` and
`schema_retrieval` events — the stream ends with no `done` event. -/
def chatCexEnv : ChatEnv :=
  { cfg_ok := false
    base_tables := .ok []
    upload_names := []
    requested_tables := []
    gen_results := []
    explain_nonempty := false
    run_results := []
    safety_nonempty := false
    analysis_chunks := 0
    suggest_nonempty := false
    slow_threshold := 1000 }

/-- C2 counterexample: a session whose datasource configuration is
incomplete raises inside the generator after two events and emits zero
`done` events — so not every session ends with a terminal `done`. -/
theorem chat_done_missing_cex :
    chat_gen chatCexEnv 2
      = ⟨[ChatEvent.message, ChatEvent.status "schema_retrieval" none], [], true⟩ ∧
    doneCount (chat_gen chatCexEnv 2).events = 0 ∧
    (chat_gen chatCexEnv 2).raised = true := ⟨rfl, rfl, rfl⟩

/-- C2 amended: every session whose generator runs to completion without
an uncaught exception emits exactly one `done` event, and that event is
the last of the stream; sessions terminated by an uncaught exception
(incomplete datasource configuration, or a non-`CircuitOpenError`
exception from `generate_sql`) end without one. -/
theorem chat_done_on_normal_completion (env : ChatEnv) (maxRetry : Nat)
    (h : (chat_gen env maxRetry).raised = false) :
    doneCount (chat_gen env maxRetry).events = 1 ∧
    ∃ b, (chat_gen env maxRetry).events.getLast? = some (ChatEvent.done b) := by
  unfold chat_gen at h ⊢
  cases hcfg : env.cfg_ok
  · rw [hcfg] at h
    simp at h
  · rw [hcfg] at h
    simp only [Bool.not_true, Bool.false_eq_true, if_false] at h ⊢
    cases hbt : env.base_tables with
    | error e => exact ⟨rfl, ⟨false, rfl⟩⟩
    | ok ts =>
      rw [hbt] at h
      dsimp only at h ⊢
      by_cases hreq : requestedSet env ≠ []
      · rw [if_pos hreq] at h ⊢
        by_cases hinv : sortStr ((requestedSet env).filter
            fun t => decide (t ∉ availableTables env)) ≠ []
        · rw [if_pos hinv]
          exact ⟨rfl, ⟨false, rfl⟩⟩
        · rw [if_neg hinv] at h ⊢
          exact chatAfterScope_done env maxRetry (requestedSet env) h
      · rw [if_neg hreq] at h ⊢
        exact chatAfterScope_done env maxRetry (availableTables env) h

/-- A session environment on which the generator completes normally. -/
def chatOkEnv : ChatEnv :=
  { cfg_ok := true
    base_tables := .ok ["t1"]
    upload_names := []
    requested_tables := []
    gen_results := [.ok "SELECT a FROM t1"]
    explain_nonempty := false
    run_results := [.ok ["a"] [["1"]] 5]
    safety_nonempty := false
    analysis_chunks := 1
    suggest_nonempty := false
    slow_threshold := 1000 }

/-- Witness for `chat_done_on_normal_completion` on `chatOkEnv`. -/
theorem chat_done_on_normal_completion_witness :
    (chat_gen chatOkEnv 2).raised = false ∧
    doneCount (chat_gen chatOkEnv 2).events = 1 ∧
    ∃ b, (chat_gen chatOkEnv 2).events.getLast? = some (ChatEvent.done b) :=
  ⟨by decide, (chat_done_on_normal_completion chatOkEnv 2 (by decide)).1,
   (chat_done_on_normal_completion chatOkEnv 2 (by decide)).2⟩
